import Mathlib

/-!
Verification development for gum-rs, a CLI managing multiple named git
identity profiles.  The definitions below are a shallow embedding of the
Rust source (src/config.rs, src/main.rs, src/utils.rs): pure data is
translated directly; interaction with the filesystem and the external
git tool is made explicit by passing environment records describing the
external responses, and by returning a trace of the external calls each
handler performs.
-/

namespace Gum

/-- Rust struct UserConfig (src/config.rs): a name/email pair. -/
structure UserConfig where
  name : String
  email : String
deriving DecidableEq, Repr

/-- Rust HashMap String UserConfig, embedded as an association list.
HashMap stores at most one binding per key; lookup finds the first
binding, insert replaces the binding in place or appends, remove erases
every binding of the key (on the at-most-one-binding representation this
is exactly HashMap remove). -/
abbrev Groups := List (String × UserConfig)

/-- HashMap get: first binding of the key, if any. -/
def lookupKV : Groups → String → Option UserConfig
  | [], _ => none
  | (k, v) :: rest, key => if k = key then some v else lookupKV rest key

/-- HashMap insert: replace the binding in place, or append a new one. -/
def insertKV : Groups → String → UserConfig → Groups
  | [], key, val => [(key, val)]
  | (k, v) :: rest, key, val =>
      if k = key then (key, val) :: rest else (k, v) :: insertKV rest key val

/-- HashMap remove: erase the bindings of the key. -/
def removeKV : Groups → String → Groups
  | [], _ => []
  | (k, v) :: rest, key =>
      if k = key then removeKV rest key else (k, v) :: removeKV rest key

/-- Rust struct Config (src/config.rs): profile groups plus the two
cached git identities (global scope and project scope). -/
structure Config where
  groups : Groups
  global_user : Option UserConfig
  project_user : Option UserConfig
deriving DecidableEq, Repr

/-- Config::new (src/config.rs). -/
def Config.new : Config :=
  { groups := [], global_user := none, project_user := none }

/-- Config::get_using_git_user (src/config.rs): project configuration
first, else global configuration, else an error. -/
def Config.get_using_git_user (c : Config) : Except String UserConfig :=
  match c.project_user.or c.global_user with
  | some u => .ok u
  | none => .error "No git user configuration found"

/-- Config::get_all_config_info (src/config.rs): the groups plus a
synthesized "global" entry when the global cache is set. -/
def Config.get_all_config_info (c : Config) : Groups :=
  match c.global_user with
  | some g => insertKV c.groups "global" g
  | none => c.groups

/-! ## External git tool output and its parsing (src/config.rs, get_git_user_batch) -/

/-- The observable outcome of one external git config query: the exit
status and the captured standard output. -/
structure GitOutput where
  success : Bool
  stdout : String
deriving DecidableEq, Repr

/-- Worker for rustLines: cur holds the characters of the line being
read, in reverse; a newline emits the line with a carriage return just
before the newline stripped; leftover characters form a final line. -/
def rustLinesAux (cur : List Char) : List Char → List String
  | [] => if cur.isEmpty then [] else [String.mk cur.reverse]
  | ch :: rest =>
      if ch = '\n' then
        let line : List Char :=
          match cur with
          | '\r' :: t => t.reverse
          | _ => cur.reverse
        String.mk line :: rustLinesAux [] rest
      else
        rustLinesAux (ch :: cur) rest

/-- Rust str::lines: split at a newline or at a carriage return followed
by a newline; a final line ending is optional and produces no empty
final line. -/
def rustLines (s : String) : List String :=
  rustLinesAux [] s.data

/-- Worker for splitOnce: pre holds the characters already passed, in
reverse. -/
def splitOnceAux (c : Char) (pre : List Char) : List Char → Option (String × String)
  | [] => none
  | ch :: rest =>
      if ch = c then some (String.mk pre.reverse, String.mk rest)
      else splitOnceAux c (ch :: pre) rest

/-- Rust str::split_once: split at the first occurrence of the
separator character, returning the parts before and after it. -/
def splitOnce (s : String) (c : Char) : Option (String × String) :=
  splitOnceAux c [] s.data

/-- One iteration of the parsing loop in get_git_user_batch: a line
with a space is split into key and value; key user.name sets the name,
key user.email sets the email, any other key is ignored, as is a line
with no space. -/
def parseStep (acc : String × String) (line : String) : String × String :=
  match splitOnce line ' ' with
  | some (key, value) =>
      if key = "user.name" then (value, acc.2)
      else if key = "user.email" then (acc.1, value)
      else acc
  | none => acc

/-- The parsing loop of get_git_user_batch over the whole stdout:
name and email accumulated over the lines, both starting empty. -/
def parseUserLines (stdout : String) : String × String :=
  (rustLines stdout).foldl parseStep ("", "")

/-- get_git_user_batch (src/config.rs): fails when the external process
reports failure; otherwise parses stdout and fails when both parsed
fields are empty, else returns the assembled UserConfig. -/
def get_git_user_batch (global : Bool) (out : GitOutput) : Except String UserConfig :=
  let scope := if global then "--global" else "--local"
  if !out.success then
    .error ("Failed to get git configuration: " ++ scope)
  else
    let parsed := parseUserLines out.stdout
    if parsed.1 = "" ∧ parsed.2 = "" then
      .error "Git user configuration is empty"
    else
      .ok { name := parsed.1, email := parsed.2 }

/-! ## The profile file: serde_json serialization of ConfigFile

The on-disk profile file is JSON; we embed the file content at the
level of parsed JSON values (strings and objects are the only shapes
the ConfigFile schema can produce or consume; any other shape is
represented by the constructor other and is rejected by decoding,
like a JSON number or array would be). -/

inductive Json where
  | str : String → Json
  | obj : List (String × Json) → Json
  | other : Json
deriving Repr

/-- First field of the given name in a JSON object, if any (serde reads
fields by name and ignores unknown fields). -/
def lookupField : List (String × Json) → String → Option Json
  | [], _ => none
  | (k, v) :: rest, key => if k = key then some v else lookupField rest key

/-- serde Serialize for UserConfig: an object with the two fields. -/
def UserConfig.toJson (u : UserConfig) : Json :=
  .obj [("name", .str u.name), ("email", .str u.email)]

/-- serde Deserialize for UserConfig: both fields must be present as
strings. -/
def UserConfig.fromJson : Json → Option UserConfig
  | .obj fields =>
      match lookupField fields "name", lookupField fields "email" with
      | some (.str n), some (.str e) => some { name := n, email := e }
      | _, _ => none
  | _ => none

/-- serde Serialize for HashMap String UserConfig: a JSON object with
one field per binding. -/
def encodeGroups (gs : Groups) : List (String × Json) :=
  gs.map (fun p => (p.1, p.2.toJson))

/-- serde Deserialize for HashMap String UserConfig: insert the decoded
entries one by one (a duplicated key keeps the last value, as a map
insert does); any undecodable value fails the whole decode. -/
def decodeGroupsAux (acc : Groups) : List (String × Json) → Option Groups
  | [] => some acc
  | (k, j) :: rest =>
      match UserConfig.fromJson j with
      | some u => decodeGroupsAux (insertKV acc k u) rest
      | none => none

def decodeGroups (fields : List (String × Json)) : Option Groups :=
  decodeGroupsAux [] fields

/-- Rust struct ConfigFile (src/config.rs): the serialization schema of
the profile file, an object with the single field groups. -/
structure ConfigFile where
  groups : Groups
deriving Repr

def ConfigFile.toJson (cf : ConfigFile) : Json :=
  .obj [("groups", .obj (encodeGroups cf.groups))]

def ConfigFile.fromJson : Json → Option ConfigFile
  | .obj fields =>
      match lookupField fields "groups" with
      | some (.obj gfields) => (decodeGroups gfields).map ConfigFile.mk
      | _ => none
  | _ => none

/-- The state of the profile file as load_config_file observes it:
none when the file does not exist; some none when it exists but reading
or JSON parsing fails; some (some j) when it parses to the JSON value
j. -/
abbrev FileState := Option (Option Json)

/-- load_config_file (src/config.rs): absence of the file yields an
empty mapping; unreadable or unparsable content is an error; otherwise
the decoded groups of the ConfigFile. -/
def load_config_file (file : FileState) : Except String Groups :=
  match file with
  | none => .ok []
  | some none => .error "failed to read or parse config file"
  | some (some j) =>
      match ConfigFile.fromJson j with
      | some cf => .ok cf.groups
      | none => .error "failed to deserialize config file"

/-- Config::save (src/config.rs): serializes ConfigFile with the
current groups and writes it; the resulting on-disk state. -/
def Config.saveContent (c : Config) : FileState :=
  some (some (ConfigFile.toJson { groups := c.groups }))

/-! ## Config::load (src/config.rs): the three startup reads -/

/-- The fixed environment of one process invocation: the profile file
state and the external git responses for the two config queries. -/
structure LoadEnv where
  file : FileState
  globalOut : GitOutput
  projectOut : GitOutput

/-- The unwrap_or_else in Config::load: a failed file load degrades to
an empty mapping with a warning. -/
def fileGroups (file : FileState) : Groups :=
  match load_config_file file with
  | .ok gs => gs
  | .error _ => []

/-- Config::load (src/config.rs): the three reads merged into one
Config; a failed file load degrades to an empty mapping, a failed git
query degrades the corresponding cache to none. -/
def Config.load (env : LoadEnv) : Config :=
  { groups := fileGroups env.file
    global_user := (get_git_user_batch true env.globalOut).toOption
    project_user := (get_git_user_batch false env.projectOut).toOption }

/-! ## Order independence of the three startup reads (for Config::load) -/

/-- One of the three independent reads Config::load spawns. -/
inductive ReadTask where
  | file
  | globalU
  | projectU
deriving DecidableEq, Repr

/-- The state being filled in while the three reads complete: a field
is none while its read has not finished. -/
structure PartialLoad where
  groups : Option Groups
  global_user : Option (Option UserConfig)
  project_user : Option (Option UserConfig)

/-- Complete one read against the fixed environment, writing only the
field owned by that read. -/
def applyRead (env : LoadEnv) (s : PartialLoad) : ReadTask → PartialLoad
  | .file =>
      { s with groups := some (fileGroups env.file) }
  | .globalU =>
      { s with global_user := some ((get_git_user_batch true env.globalOut).toOption) }
  | .projectU =>
      { s with project_user := some ((get_git_user_batch false env.projectOut).toOption) }

/-- Run the three reads sequentially in the given order. -/
def loadSeq (env : LoadEnv) (order : List ReadTask) : PartialLoad :=
  order.foldl (applyRead env) { groups := none, global_user := none, project_user := none }

/-- Read off the final Config once every read has completed. -/
def PartialLoad.toConfig (s : PartialLoad) : Config :=
  { groups := s.groups.getD []
    global_user := s.global_user.getD none
    project_user := s.project_user.getD none }

/-! ## Command handlers (src/main.rs) with explicit external-call traces -/

/-- An externally visible effect of a command handler: the repository
probe, the two git config writes of set_git_user, the cache-refreshing
git config read, and the profile file write of Config::save. -/
inductive ExtCall where
  | isGitRepo
  | gitSetName (global : Bool) (value : String)
  | gitSetEmail (global : Bool) (value : String)
  | gitGetConfig (global : Bool)
  | saveFile (groups : Groups)
deriving DecidableEq, Repr

/-- The environment of a use command: whether the working directory is
a git repository, the exit statuses of the two git config writes, and
the git responses for the cache refresh reads. -/
structure UseEnv where
  is_repo : Bool
  setNameOk : Bool
  setEmailOk : Bool
  globalOut : GitOutput
  projectOut : GitOutput

/-- set_git_user (src/config.rs): set user.name, and only if that
succeeded set user.email; report the step that failed. -/
def set_git_user (env : UseEnv) (user : UserConfig) (global : Bool) :
    Except String Unit × List ExtCall :=
  if env.setNameOk then
    if env.setEmailOk then
      (.ok (), [.gitSetName global user.name, .gitSetEmail global user.email])
    else
      (.error "Failed to set git user.email",
       [.gitSetName global user.name, .gitSetEmail global user.email])
  else
    (.error "Failed to set git user.name", [.gitSetName global user.name])

/-- handle_set (src/main.rs): rejects the reserved name and an update
with neither field; otherwise patches the existing profile (or a fresh
one with empty fields) with exactly the supplied fields, stores it and
saves. saveOk is the outcome of the file write. -/
def handle_set (saveOk : Bool) (c : Config) (group_name : String)
    (name email : Option String) : Except String Unit × Config × List ExtCall :=
  if group_name = "global" then
    (.error "Group name cannot be 'global'", c, [])
  else if name.isNone ∧ email.isNone then
    (.error "Must provide at least one of username or email", c, [])
  else
    let current := (lookupKV c.groups group_name).getD { name := "", email := "" }
    let current :=
      match name with
      | some n => { current with name := n }
      | none => current
    let current :=
      match email with
      | some e => { current with email := e }
      | none => current
    let groups' := insertKV c.groups group_name current
    let c' := { c with groups := groups' }
    if saveOk then (.ok (), c', [.saveFile groups'])
    else (.error "failed to save config file", c', [.saveFile groups'])

/-- handle_use (src/main.rs): looks the name up in the full view; for a
local target first probes for a git repository; then writes through
set_git_user, refreshes the written scope's cache from git, and shows
the now effective user. -/
def handle_use (env : UseEnv) (c : Config) (group_name : String) (global : Bool) :
    Except String Unit × Config × List ExtCall :=
  match lookupKV (c.get_all_config_info) group_name with
  | none => (.error (group_name ++ " is an invalid group name"), c, [])
  | some user =>
      let repoTrace : List ExtCall := if global then [] else [.isGitRepo]
      if !global ∧ !env.is_repo then
        (.error "Current project is not a git repository", c, repoTrace)
      else
        match set_git_user env user global with
        | (.error e, tr) => (.error e, c, repoTrace ++ tr)
        | (.ok _, tr) =>
            let c' :=
              if global then
                { c with global_user := (get_git_user_batch true env.globalOut).toOption }
              else
                { c with project_user := (get_git_user_batch false env.projectOut).toOption }
            let tr' := repoTrace ++ tr ++ [.gitGetConfig global]
            match c'.get_using_git_user with
            | .error e => (.error e, c', tr')
            | .ok _ => (.ok (), c', tr')

/-- handle_delete (src/main.rs): rejects the reserved name; removing an
absent name is an error with nothing written; removing a present name
drops it and saves. -/
def handle_delete (saveOk : Bool) (c : Config) (group_name : String) :
    Except String Unit × Config × List ExtCall :=
  if group_name = "global" then
    (.error "Cannot delete global", c, [])
  else
    match lookupKV c.groups group_name with
    | some _ =>
        let groups' := removeKV c.groups group_name
        let c' := { c with groups := groups' }
        if saveOk then (.ok (), c', [.saveFile groups'])
        else (.error "failed to save config file", c', [.saveFile groups'])
    | none => (.error (group_name ++ " group not found"), c, [])

/-! ## Lemmas on the association-list embedding of HashMap -/

@[simp] theorem lookupKV_insertKV_self (l : Groups) (k : String) (v : UserConfig) :
    lookupKV (insertKV l k v) k = some v := by
  induction l with
  | nil => simp [insertKV, lookupKV]
  | cons p rest ih =>
      obtain ⟨k', v'⟩ := p
      by_cases h : k' = k
      · simp [insertKV, lookupKV, h]
      · simp [insertKV, lookupKV, h, ih]

theorem lookupKV_insertKV_ne (l : Groups) (k k' : String) (v : UserConfig)
    (h : k' ≠ k) : lookupKV (insertKV l k v) k' = lookupKV l k' := by
  have h' : ¬ k = k' := fun hh => h hh.symm
  induction l with
  | nil => simp [insertKV, lookupKV, h']
  | cons p rest ih =>
      obtain ⟨k₀, v₀⟩ := p
      by_cases hk : k₀ = k
      · subst hk
        simp [insertKV, lookupKV, h']
      · by_cases hk' : k₀ = k'
        · simp [insertKV, lookupKV, hk, hk', h]
        · simp [insertKV, lookupKV, hk, hk', ih]

@[simp] theorem lookupKV_removeKV_self (l : Groups) (k : String) :
    lookupKV (removeKV l k) k = none := by
  induction l with
  | nil => simp [removeKV, lookupKV]
  | cons p rest ih =>
      obtain ⟨k', v'⟩ := p
      by_cases h : k' = k
      · simpa [removeKV, h] using ih
      · simp [removeKV, lookupKV, h, ih]

theorem lookupKV_removeKV_ne (l : Groups) (k k' : String) (h : k' ≠ k) :
    lookupKV (removeKV l k) k' = lookupKV l k' := by
  have h' : ¬ k = k' := fun hh => h hh.symm
  induction l with
  | nil => simp [removeKV]
  | cons p rest ih =>
      obtain ⟨k₀, v₀⟩ := p
      by_cases hk : k₀ = k
      · subst hk
        simp [removeKV, lookupKV, h', ih]
      · by_cases hk' : k₀ = k'
        · simp [removeKV, lookupKV, hk, hk', h]
        · simp [removeKV, lookupKV, hk, hk', ih]

/-! ## Claim theorems -/

/-- C1: for every Configuration State, get_using_git_user returns the
project identity whenever the project cache is set, regardless of the
global cache; returns the global identity when only the global cache is
set; and is the error result when neither cache is set. -/
theorem effective_identity_resolution (c : Config) :
    (∀ p, c.project_user = some p → c.get_using_git_user = .ok p) ∧
    (∀ g, c.project_user = none → c.global_user = some g →
      c.get_using_git_user = .ok g) ∧
    (c.project_user = none → c.global_user = none →
      c.get_using_git_user = .error "No git user configuration found") := by
  refine ⟨?_, ?_, ?_⟩
  · intro p hp
    simp [Config.get_using_git_user, hp, Option.or]
  · intro g hp hg
    simp [Config.get_using_git_user, hp, hg, Option.or]
  · intro hp hg
    simp [Config.get_using_git_user, hp, hg, Option.or]

/-- Witness for C1 at a concrete state with both caches set. -/
theorem effective_identity_resolution_witness :
    (Config.mk [] (some ⟨"Alice", "a@x.com"⟩) (some ⟨"Bob", "b@x.com"⟩)).get_using_git_user
      = .ok ⟨"Bob", "b@x.com"⟩ :=
  (effective_identity_resolution _).1 _ rfl

/-- C5: handle_set always fails on the reserved group name global, and
always fails when neither field is supplied; in both cases the Config
is returned unchanged and the call trace is empty (no save, no external
call). -/
theorem handle_set_rejections (saveOk : Bool) (c : Config) (group_name : String)
    (name email : Option String) :
    (handle_set saveOk c "global" name email
        = (.error "Group name cannot be 'global'", c, [])) ∧
    (name = none → email = none →
      ∃ msg, handle_set saveOk c group_name name email = (.error msg, c, [])) := by
  constructor
  · simp [handle_set]
  · intro hn he
    subst hn; subst he
    by_cases hg : group_name = "global"
    · exact ⟨"Group name cannot be 'global'", by simp [handle_set, hg]⟩
    · exact ⟨"Must provide at least one of username or email", by simp [handle_set, hg]⟩

/-- Witness for C5 at a concrete state with no fields supplied. -/
theorem handle_set_rejections_witness :
    ∃ msg, handle_set true (Config.mk [("w", ⟨"n", "e"⟩)] none none) "w" none none
      = (.error msg, Config.mk [("w", ⟨"n", "e"⟩)] none none, []) :=
  (handle_set_rejections true _ "w" none none).2 rfl rfl

/-- C6: handle_delete rejects the name global; deleting an absent name
fails with the Config unchanged and no save; deleting a present name
removes exactly that key, leaves every other key's binding unchanged,
and saves the new mapping. -/
theorem handle_delete_spec (saveOk : Bool) (c : Config) (group_name : String) :
    (handle_delete saveOk c "global" = (.error "Cannot delete global", c, [])) ∧
    (group_name ≠ "global" → lookupKV c.groups group_name = none →
      handle_delete saveOk c group_name
        = (.error (group_name ++ " group not found"), c, [])) ∧
    (∀ u, group_name ≠ "global" → lookupKV c.groups group_name = some u →
      lookupKV (handle_delete saveOk c group_name).2.1.groups group_name = none ∧
      (∀ k, k ≠ group_name →
        lookupKV (handle_delete saveOk c group_name).2.1.groups k = lookupKV c.groups k) ∧
      (handle_delete saveOk c group_name).2.2
        = [.saveFile (removeKV c.groups group_name)]) := by
  refine ⟨?_, ?_, ?_⟩
  · simp [handle_delete]
  · intro hg habs
    simp [handle_delete, hg, habs]
  · intro u hg hpres
    refine ⟨?_, fun k hk => ?_, ?_⟩
    · cases hs : saveOk <;> simp [handle_delete, hg, hpres, hs]
    · cases hs : saveOk <;>
        simp [handle_delete, hg, hpres, hs, lookupKV_removeKV_ne _ _ _ hk]
    · cases hs : saveOk <;> simp [handle_delete, hg, hpres, hs]

/-- C2 counterexample: loading from an on-disk profile file whose
groups object contains the key global yields a groups mapping that
contains the key global — load_config_file does not filter the
reserved name, so the claimed invariant fails for initialize(). -/
theorem load_groups_contain_global_counterexample :
    lookupKV (Config.load
      { file := some (some (.obj [("groups", .obj
          [("global", .obj [("name", .str "G"), ("email", .str "g@x")])])])),
        globalOut := ⟨false, ""⟩, projectOut := ⟨false, ""⟩ }).groups "global"
      = some ⟨"G", "g@x"⟩ := by
  decide

/-- C2 (amended): the user-facing mutation operations preserve the
absence of the key global in groups (handle_set cannot target it and
never inserts it, handle_delete rejects it), and the empty Config lacks
it; initialize()/load, however, returns the on-disk groups verbatim. -/
theorem mutations_preserve_no_global (saveOk : Bool) (c : Config) (group_name : String)
    (name email : Option String) (h : lookupKV c.groups "global" = none) :
    lookupKV (handle_set saveOk c group_name name email).2.1.groups "global" = none ∧
    lookupKV (handle_delete saveOk c group_name).2.1.groups "global" = none ∧
    lookupKV Config.new.groups "global" = none := by
  refine ⟨?_, ?_, rfl⟩
  · by_cases hg : group_name = "global"
    · simp [handle_set, hg, h]
    · have hne : ¬ "global" = group_name := fun hh => hg hh.symm
      cases saveOk <;> rcases name with _ | n <;> rcases email with _ | e <;>
        simp [handle_set, hg, h, lookupKV_insertKV_ne _ _ _ _ hne]
  · by_cases hg : group_name = "global"
    · simp [handle_delete, hg, h]
    · rcases hpres : lookupKV c.groups group_name with _ | u
      · simp [handle_delete, hg, hpres, h]
      · have hne : ¬ "global" = group_name := fun hh => hg hh.symm
        cases saveOk <;>
          simp [handle_delete, hg, hpres, lookupKV_removeKV_ne _ _ _ hne, h]

/-- Witness for the amended C2 at a concrete state. -/
theorem mutations_preserve_no_global_witness :
    lookupKV (handle_set true (Config.mk [("w", ⟨"n", "e"⟩)] none none)
      "w" (some "N") none).2.1.groups "global" = none :=
  (mutations_preserve_no_global true (Config.mk [("w", ⟨"n", "e"⟩)] none none)
    "w" (some "N") none (by decide)).1

/-- C3: handle_use with a name absent from the full view fails with an
empty call trace (no external call at all); with a present name, a
local target scope and no surrounding git repository it fails with a
trace holding only the repository probe — set_git_user is never
reached. -/
theorem handle_use_guards (env : UseEnv) (c : Config) (group_name : String)
    (global : Bool) :
    (lookupKV c.get_all_config_info group_name = none →
      handle_use env c group_name global
        = (.error (group_name ++ " is an invalid group name"), c, [])) ∧
    (∀ u, lookupKV c.get_all_config_info group_name = some u → env.is_repo = false →
      handle_use env c group_name false
        = (.error "Current project is not a git repository", c, [.isGitRepo])) := by
  constructor
  · intro h
    simp [handle_use, h]
  · intro u h hr
    simp [handle_use, h, hr]

/-- Witness for C3: a present profile, local scope, not a repository. -/
theorem handle_use_guards_witness :
    handle_use { is_repo := false, setNameOk := true, setEmailOk := true,
                 globalOut := ⟨true, ""⟩, projectOut := ⟨true, ""⟩ }
      (Config.mk [("w", ⟨"n", "e"⟩)] none none) "w" false
      = (.error "Current project is not a git repository",
         Config.mk [("w", ⟨"n", "e"⟩)] none none, [.isGitRepo]) :=
  (handle_use_guards _ _ "w" false).2 ⟨"n", "e"⟩ (by decide) rfl

/-- C4: for a non-reserved name with at least one field supplied,
handle_set stores under that key the previous profile (or one with two
empty fields if the key was absent) overwritten on exactly the supplied
fields; the full view then holds exactly that pair under the key, every
other key is untouched, and the new mapping is saved. -/
theorem handle_set_patches (saveOk : Bool) (c : Config) (group_name : String)
    (name email : Option String) (hg : group_name ≠ "global")
    (hfield : name.isSome ∨ email.isSome) :
    (handle_set saveOk c group_name name email).2.1.groups
      = insertKV c.groups group_name
          ⟨name.getD ((lookupKV c.groups group_name).getD ⟨"", ""⟩).name,
           email.getD ((lookupKV c.groups group_name).getD ⟨"", ""⟩).email⟩ ∧
    lookupKV ((handle_set saveOk c group_name name email).2.1.get_all_config_info)
        group_name
      = some ⟨name.getD ((lookupKV c.groups group_name).getD ⟨"", ""⟩).name,
              email.getD ((lookupKV c.groups group_name).getD ⟨"", ""⟩).email⟩ ∧
    (∀ k, k ≠ group_name →
      lookupKV (handle_set saveOk c group_name name email).2.1.groups k
        = lookupKV c.groups k) ∧
    (handle_set saveOk c group_name name email).2.2
      = [.saveFile ((handle_set saveOk c group_name name email).2.1.groups)] := by
  have hgroups : (handle_set saveOk c group_name name email).2.1.groups
      = insertKV c.groups group_name
          ⟨name.getD ((lookupKV c.groups group_name).getD ⟨"", ""⟩).name,
           email.getD ((lookupKV c.groups group_name).getD ⟨"", ""⟩).email⟩ := by
    rcases name with _ | n <;> rcases email with _ | e
    · exact absurd hfield (by simp)
    · cases saveOk <;> simp [handle_set, hg]
    · cases saveOk <;> simp [handle_set, hg]
    · cases saveOk <;> simp [handle_set, hg]
  have hglob : (handle_set saveOk c group_name name email).2.1.global_user
      = c.global_user := by
    rcases name with _ | n <;> rcases email with _ | e
    · exact absurd hfield (by simp)
    · cases saveOk <;> simp [handle_set, hg]
    · cases saveOk <;> simp [handle_set, hg]
    · cases saveOk <;> simp [handle_set, hg]
  refine ⟨hgroups, ?_, fun k hk => ?_, ?_⟩
  · rcases hgu : c.global_user with _ | g
    · simp [Config.get_all_config_info, hglob, hgu, hgroups]
    · simp only [Config.get_all_config_info, hglob, hgu]
      rw [lookupKV_insertKV_ne _ _ _ _ hg, hgroups, lookupKV_insertKV_self]
  · rw [hgroups, lookupKV_insertKV_ne _ _ _ _ hk]
  · rw [hgroups]
    rcases name with _ | n <;> rcases email with _ | e
    · exact absurd hfield (by simp)
    · cases saveOk <;> simp [handle_set, hg]
    · cases saveOk <;> simp [handle_set, hg]
    · cases saveOk <;> simp [handle_set, hg]

/-- Witness for C4: patching only the email of an existing profile. -/
theorem handle_set_patches_witness :
    lookupKV ((handle_set true (Config.mk [("w", ⟨"Old", "o@x"⟩)] none none)
        "w" none (some "new@x")).2.1.get_all_config_info) "w"
      = some ⟨"Old", "new@x"⟩ := by
  have h := (handle_set_patches true (Config.mk [("w", ⟨"Old", "o@x"⟩)] none none)
    "w" none (some "new@x") (by decide) (by simp)).2.1
  simpa using h

/-- Witness for C6 deleting a present key at a concrete state. -/
theorem handle_delete_spec_witness :
    lookupKV (handle_delete true (Config.mk [("w", ⟨"n", "e"⟩), ("x", ⟨"m", "f"⟩)] none none)
        "w").2.1.groups "w" = none ∧
    lookupKV (handle_delete true (Config.mk [("w", ⟨"n", "e"⟩), ("x", ⟨"m", "f"⟩)] none none)
        "w").2.1.groups "x" = some ⟨"m", "f"⟩ := by
  have h := (handle_delete_spec true
    (Config.mk [("w", ⟨"n", "e"⟩), ("x", ⟨"m", "f"⟩)] none none) "w").2.2
    ⟨"n", "e"⟩ (by decide) (by decide)
  exact ⟨h.1, by rw [h.2.1 "x" (by decide)]; decide⟩

/-- C7: get_git_user_batch parses the line-oriented key value output;
its error cases are exactly external failure or both recognized keys
ending up valueless; otherwise it returns the assembled identity; and
one parsing step ignores a line whose key is neither user.name nor
user.email, as well as a line with no space. -/
theorem get_git_user_batch_spec :
    (∀ (g : Bool) (out : GitOutput),
      (get_git_user_batch g out).toOption = none ↔
        (out.success = false ∨ parseUserLines out.stdout = ("", ""))) ∧
    (∀ (g : Bool) (out : GitOutput), out.success = true →
      parseUserLines out.stdout ≠ ("", "") →
      get_git_user_batch g out
        = .ok ⟨(parseUserLines out.stdout).1, (parseUserLines out.stdout).2⟩) ∧
    (∀ (acc : String × String) (line key value : String),
      splitOnce line ' ' = some (key, value) →
      key ≠ "user.name" → key ≠ "user.email" → parseStep acc line = acc) ∧
    (∀ (acc : String × String) (line : String),
      splitOnce line ' ' = none → parseStep acc line = acc) := by
  refine ⟨?_, ?_, ?_, ?_⟩
  · intro g out
    rcases hs : out.success
    · simp [get_git_user_batch, hs, Except.toOption]
    · rcases hp : parseUserLines out.stdout with ⟨n, e⟩
      by_cases hn : n = ""
      · by_cases he : e = ""
        · simp [get_git_user_batch, hs, hp, hn, he, Except.toOption]
        · simp [get_git_user_batch, hs, hp, hn, he, Except.toOption]
      · simp [get_git_user_batch, hs, hp, hn, Except.toOption]
  · intro g out hs hne
    rcases hp : parseUserLines out.stdout with ⟨n, e⟩
    rw [hp] at hne
    have hcase : ¬ (n = "" ∧ e = "") := by
      intro hc
      exact hne (by simp [hc.1, hc.2])
    simp [get_git_user_batch, hs, hp, hcase]
  · intro acc line key value hsplit hkn hke
    simp [parseStep, hsplit, hkn, hke]
  · intro acc line hsplit
    simp [parseStep, hsplit]

/-- Witness for C7: a successful query whose output holds both keys
plus an ignored one. -/
theorem get_git_user_batch_spec_witness :
    get_git_user_batch true
      ⟨true, "user.name Alice\nother zz\nuser.email a@x.com\n"⟩
      = .ok ⟨"Alice", "a@x.com"⟩ := by
  have h := get_git_user_batch_spec.2.1 true
    ⟨true, "user.name Alice\nother zz\nuser.email a@x.com\n"⟩ rfl (by decide)
  rw [h]
  exact congrArg Except.ok (by decide)

/-- C10: when the external query succeeds and exactly one recognized
key has a value, get_git_user_batch returns an identity whose other
field is the empty string rather than an error; and such an identity is
exposed unfiltered by both the full view's synthesized global entry and
by get_using_git_user. -/
theorem batch_partial_identity :
    (∀ (g : Bool) (out : GitOutput), out.success = true →
      (parseUserLines out.stdout).1 ≠ "" → (parseUserLines out.stdout).2 = "" →
      get_git_user_batch g out = .ok ⟨(parseUserLines out.stdout).1, ""⟩) ∧
    (∀ (g : Bool) (out : GitOutput), out.success = true →
      (parseUserLines out.stdout).1 = "" → (parseUserLines out.stdout).2 ≠ "" →
      get_git_user_batch g out = .ok ⟨"", (parseUserLines out.stdout).2⟩) ∧
    (∀ (c : Config) (u : UserConfig), c.global_user = some u →
      lookupKV c.get_all_config_info "global" = some u) ∧
    (∀ (c : Config) (u : UserConfig), c.global_user = some u →
      c.project_user = none → c.get_using_git_user = .ok u) := by
  refine ⟨?_, ?_, ?_, ?_⟩
  · intro g out hs hn he
    rcases hp : parseUserLines out.stdout with ⟨n, e⟩
    rw [hp] at hn he
    subst he
    simp [get_git_user_batch, hs, hp, hn]
  · intro g out hs hn he
    rcases hp : parseUserLines out.stdout with ⟨n, e⟩
    rw [hp] at hn he
    subst hn
    simp [get_git_user_batch, hs, hp, he]
  · intro c u hu
    simp [Config.get_all_config_info, hu]
  · intro c u hu hp
    simp [Config.get_using_git_user, hu, hp, Option.or]

/-- Witness for C10: output with only user.name; the resulting
empty-email identity flows through the cache into the full view and
the effective identity. -/
theorem batch_partial_identity_witness :
    get_git_user_batch false ⟨true, "user.name Alice\nother zz\n"⟩
      = .ok ⟨"Alice", ""⟩ ∧
    (Config.mk [] (some ⟨"Alice", ""⟩) none).get_using_git_user = .ok ⟨"Alice", ""⟩ := by
  constructor
  · have h := batch_partial_identity.1 false ⟨true, "user.name Alice\nother zz\n"⟩
      rfl (by decide) (by decide)
    rw [h]
    exact congrArg Except.ok (by decide)
  · exact batch_partial_identity.2.2.2 _ ⟨"Alice", ""⟩ rfl rfl

/-! ## Round-trip of the profile file serialization -/

theorem fromJson_toJson (u : UserConfig) :
    UserConfig.fromJson u.toJson = some u := rfl

theorem insertKV_of_notMem (l : Groups) (k : String) (v : UserConfig)
    (h : k ∉ l.map Prod.fst) : insertKV l k v = l ++ [(k, v)] := by
  induction l with
  | nil => simp [insertKV]
  | cons p rest ih =>
      obtain ⟨k₀, v₀⟩ := p
      simp only [List.map, List.mem_cons] at h
      push_neg at h
      have hne : ¬ k₀ = k := fun hh => h.1 hh.symm
      simp [insertKV, hne, ih h.2]

theorem decodeGroupsAux_encodeGroups (gs : Groups) :
    ∀ acc : Groups, (gs.map Prod.fst).Nodup →
    (∀ k ∈ gs.map Prod.fst, k ∉ acc.map Prod.fst) →
    decodeGroupsAux acc (encodeGroups gs) = some (acc ++ gs) := by
  induction gs with
  | nil =>
      intro acc _ _
      simp [encodeGroups, decodeGroupsAux]
  | cons p rest ih =>
      obtain ⟨k, u⟩ := p
      intro acc hnodup hdisj
      have hk : k ∉ acc.map Prod.fst := hdisj k (by simp)
      have hrest : ∀ k' ∈ rest.map Prod.fst, k' ∉ (acc ++ [(k, u)]).map Prod.fst := by
        intro k' hk'
        simp only [List.map_append, List.mem_append] at *
        push_neg
        refine ⟨hdisj k' (by simp [hk']), ?_⟩
        intro hcon
        simp only [List.map, List.mem_singleton] at hcon
        rcases hnodup with _ | ⟨hhead, _⟩
        exact hhead k' hk' hcon.symm
      have htail : (rest.map Prod.fst).Nodup := by
        rcases hnodup with _ | ⟨_, ht⟩
        exact ht
      calc decodeGroupsAux acc (encodeGroups ((k, u) :: rest))
      _ = decodeGroupsAux (insertKV acc k u) (encodeGroups rest) := by
        simp [encodeGroups, decodeGroupsAux, fromJson_toJson]
      _ = decodeGroupsAux (acc ++ [(k, u)]) (encodeGroups rest) := by
        rw [insertKV_of_notMem acc k u hk]
      _ = some ((acc ++ [(k, u)]) ++ rest) := ih (acc ++ [(k, u)]) htail hrest
      _ = some (acc ++ (k, u) :: rest) := by simp

/-- C8: for every Configuration State whose groups form a mapping (no
duplicate keys), saving and then loading the profile file returns the
same mapping unchanged; saving the empty state round-trips to the empty
mapping rather than an error; and loading an absent file yields the
empty mapping. -/
theorem save_load_roundtrip (c : Config) (h : (c.groups.map Prod.fst).Nodup) :
    load_config_file c.saveContent = .ok c.groups ∧
    load_config_file (Config.saveContent Config.new) = .ok [] ∧
    load_config_file none = .ok [] := by
  refine ⟨?_, rfl, rfl⟩
  have hdec : decodeGroups (encodeGroups c.groups) = some c.groups := by
    have := decodeGroupsAux_encodeGroups c.groups [] h (by simp)
    simpa [decodeGroups] using this
  simp [load_config_file, Config.saveContent, ConfigFile.toJson, ConfigFile.fromJson,
    lookupField, hdec]

/-- Witness for C8 on a concrete two-profile state. -/
theorem save_load_roundtrip_witness :
    load_config_file
      (Config.saveContent (Config.mk [("w", ⟨"n", "e"⟩), ("x", ⟨"m", "f"⟩)] none none))
      = .ok [("w", ⟨"n", "e"⟩), ("x", ⟨"m", "f"⟩)] :=
  (save_load_roundtrip (Config.mk [("w", ⟨"n", "e"⟩), ("x", ⟨"m", "f"⟩)] none none)
    (by decide)).1

/-- C9: the three startup reads of Config::load are independent:
running them sequentially in any order yields exactly the Config that
Config::load builds; a failing file read degrades only groups to the
empty mapping, a failing git query degrades only its own cache to none;
and each field of the result depends only on its own part of the
environment. -/
theorem load_reads_independent :
    (∀ (env : LoadEnv) (order : List ReadTask),
      order.Perm [.file, .globalU, .projectU] →
      (loadSeq env order).toConfig = Config.load env) ∧
    (∀ env : LoadEnv, (∃ msg, load_config_file env.file = .error msg) →
      (Config.load env).groups = []) ∧
    (∀ env : LoadEnv, env.globalOut.success = false →
      (Config.load env).global_user = none) ∧
    (∀ env : LoadEnv, env.projectOut.success = false →
      (Config.load env).project_user = none) ∧
    (∀ e₁ e₂ : LoadEnv, e₁.file = e₂.file →
      (Config.load e₁).groups = (Config.load e₂).groups) ∧
    (∀ e₁ e₂ : LoadEnv, e₁.globalOut = e₂.globalOut →
      (Config.load e₁).global_user = (Config.load e₂).global_user) ∧
    (∀ e₁ e₂ : LoadEnv, e₁.projectOut = e₂.projectOut →
      (Config.load e₁).project_user = (Config.load e₂).project_user) := by
  refine ⟨?_, ?_, ?_, ?_, ?_, ?_, ?_⟩
  · intro env order hperm
    have hlen : order.length = 3 := hperm.length_eq
    rcases order with _ | ⟨a, _ | ⟨b, _ | ⟨c, _ | ⟨d, tail⟩⟩⟩⟩ <;> simp at hlen
    cases a <;> cases b <;> cases c <;>
      first
      | rfl
      | exact absurd hperm (by decide)
  · intro env ⟨msg, hmsg⟩
    simp [Config.load, fileGroups, hmsg]
  · intro env h
    simp [Config.load, get_git_user_batch, h, Except.toOption]
  · intro env h
    simp [Config.load, get_git_user_batch, h, Except.toOption]
  · intro e₁ e₂ h
    simp only [Config.load]
    rw [h]
  · intro e₁ e₂ h
    simp only [Config.load]
    rw [h]
  · intro e₁ e₂ h
    simp only [Config.load]
    rw [h]

/-- Witness for C9: a permuted order on a concrete environment. -/
theorem load_reads_independent_witness :
    (loadSeq { file := none, globalOut := ⟨true, "user.name A\n"⟩,
               projectOut := ⟨false, ""⟩ }
        [.projectU, .globalU, .file]).toConfig
      = Config.load { file := none, globalOut := ⟨true, "user.name A\n"⟩,
                      projectOut := ⟨false, ""⟩ } :=
  load_reads_independent.1 _ _ (by decide)

end Gum
